import Mathlib

/-!
# nostrMQ — formal verification of the specification against the source

Shallow embedding of the nostrMQ TypeScript library (proof-of-work engine,
replay tracker, relay pool, send/receive pipelines) together with theorems
settling the frozen claims.  Each definition is translated from the source
file named in its doc comment.  Opaque external capabilities (the event
hash, key derivation, NIP-04 decryption, JSON parsing of decrypted
cleartext) are taken as function parameters, as §1 of the specification
designates them external collaborators.  Asynchrony is embedded by making
the outcomes of I/O races and awaited frames explicit arguments
(settle-time schedules, per-relay OK-frame streams, persistence-write
outcome flags).
-/

/-! ## Hex digits and leading-zero-bit counting (src/pow.ts lines 14-31) -/

/-- Value of a hex digit as produced by JS `parseInt(char, 16)`;
`none` models `NaN` for a non-hex character. -/
def hexDigitVal (c : Char) : Option Nat :=
  if '0' ≤ c ∧ c ≤ '9' then some (c.toNat - '0'.toNat)
  else if 'a' ≤ c ∧ c ≤ 'f' then some (c.toNat - 'a'.toNat + 10)
  else if 'A' ≤ c ∧ c ≤ 'F' then some (c.toNat - 'A'.toNat + 10)
  else none

/-- Loop body of `countLeadingZeroBits`: each `0` nibble adds 4; the first
non-zero nibble adds one bit per satisfied comparison (`< 8`, `< 4`, `< 2`)
and stops; a non-hex character makes every comparison with `NaN` false, so
the loop stops adding nothing. -/
def clzbChars : List Char → Nat
  | [] => 0
  | c :: rest =>
    match hexDigitVal c with
    | some 0 => 4 + clzbChars rest
    | some v =>
      (if v < 8 then 1 else 0) + (if v < 4 then 1 else 0) +
        (if v < 2 then 1 else 0)
    | none => 0

/-- Source `countLeadingZeroBits(hex)` from src/pow.ts lines 14-31. -/
def countLeadingZeroBits (hex : String) : Nat :=
  clzbChars hex.data

/-- Source `validatePowDifficulty(eventId, bits)` from src/pow.ts lines 36-39. -/
def validatePowDifficulty (eventId : String) (bits : Int) : Bool :=
  if bits ≤ 0 then true
  else (countLeadingZeroBits eventId : Int) ≥ bits

/-! ## Event templates and the PoW mining loop (src/pow.ts) -/

/-- The `EventTemplate & { pubkey: string }` shape mined by src/pow.ts. -/
structure EventTemplate where
  pubkey : String
  created_at : Int
  kind : Int
  tags : List (List String)
  content : String
deriving DecidableEq, Repr

/-- An event template together with the optional `id` attached after
mining (`EventTemplateWithPow` of src/types.ts). -/
structure EventTemplateWithPow where
  tmpl : EventTemplate
  idOpt : Option String
deriving DecidableEq, Repr

/-- A `PowResult` (src/types.ts): the mined event and the iteration count.
The wall-clock `timeMs` field is not part of the shallow embedding. -/
structure PowResult where
  event : EventTemplateWithPow
  iterations : Nat
deriving DecidableEq, Repr

/-- The `eventWithNonce` construction of the mining loops
(src/pow.ts line 56-59 and src/pow.worker.js line 47-50): the nonce tag
`["nonce", nonce.toString(), bits.toString()]` is appended after the
template's existing tags. -/
def withNonce (evt : EventTemplate) (nonce : Nat) (bits : Int) : EventTemplate :=
  { evt with tags := evt.tags ++ [["nonce", toString nonce, toString bits]] }

/-- The mining loop shared by `mineSingleThreaded` (src/pow.ts lines 44-83)
and `mineWorker` (src/pow.worker.js lines 37-77), with the `while(true)`
made structural on a fuel argument (`none` = the loop is still running after
`fuel` iterations).  `hash` stands for the external `getEventHash`.
Each iteration appends a nonce tag, hashes, tests the difficulty and
otherwise advances `nonce` by `stride`. -/
def mineLoop (hash : EventTemplate → String) (evt : EventTemplate) (bits : Int)
    (stride : Nat) : Nat → Nat → Nat → Option PowResult
  | 0, _, _ => none
  | fuel + 1, nonce, iterations =>
    let eventWithNonce := withNonce evt nonce bits
    let eventId := hash eventWithNonce
    if validatePowDifficulty eventId bits then
      some ⟨⟨eventWithNonce, some eventId⟩, iterations + 1⟩
    else
      mineLoop hash evt bits stride fuel (nonce + stride) (iterations + 1)

/-- Source `mineSingleThreaded` (src/pow.ts lines 44-83): nonce starts at 0 and
advances by 1. -/
def mineSingleThreaded (hash : EventTemplate → String) (evt : EventTemplate)
    (bits : Int) (fuel : Nat) : Option PowResult :=
  mineLoop hash evt bits 1 fuel 0 0

/-- One worker of `mineMultiThreaded` (src/pow.worker.js `mineWorker`):
worker `offset` mines nonces `offset, offset+stride, …`. -/
def mineWorker (hash : EventTemplate → String) (evt : EventTemplate)
    (bits : Int) (offset stride : Nat) (fuel : Nat) : Option PowResult :=
  mineLoop hash evt bits stride fuel offset 0

/-- Source `mineEventPow(evt, bits, threads)` (src/pow.ts lines 161-202).
Negative `bits` and `threads < 1` throw; `bits = 0` returns the template
unchanged; otherwise the template is mined.  For `threads > 1` the first
worker to report a solution wins the race; the scheduler's choice of the
winning worker is the explicit argument `winner` (reduced mod `threads`).
`.ok none` means no worker has found a solution within `fuel` iterations. -/
def mineEventPow (hash : EventTemplate → String) (evt : EventTemplate)
    (bits threads : Int) (winner : Nat) (fuel : Nat) :
    Except String (Option EventTemplateWithPow) :=
  if bits < 0 then .error "Difficulty bits must be non-negative"
  else if bits = 0 then .ok (some ⟨evt, none⟩)
  else if threads < 1 then .error "Thread count must be at least 1"
  else if threads = 1 then
    .ok ((mineSingleThreaded hash evt bits fuel).map (·.event))
  else
    .ok ((mineWorker hash evt bits (winner % threads.toNat) threads.toNat
      fuel).map (·.event))

/-! ## PoW verification (src/pow.ts lines 207-232) -/

/-- The tag test `tag[0] === "nonce"` of src/pow.ts line 214. -/
def isNonceTag (tag : List String) : Bool :=
  tag.head? = some "nonce"

/-- JS `parseInt(s, 10)`: skip leading whitespace, optional sign, then the
longest digit run; `none` models `NaN` when no digit follows. -/
def parseIntJS10 (s : String) : Option Int :=
  let cs := s.data.dropWhile (fun c => c = ' ' ∨ c = '\t' ∨ c = '\n' ∨ c = '\r')
  let digitsVal : List Char → Option Nat := fun l =>
    let ds := l.takeWhile Char.isDigit
    if ds.isEmpty then none
    else some (ds.foldl (fun a c => a * 10 + (c.toNat - '0'.toNat)) 0)
  match cs with
  | '-' :: rest => (digitsVal rest).map (fun n => -(n : Int))
  | '+' :: rest => (digitsVal rest).map (fun n => (n : Int))
  | _ => (digitsVal cs).map (fun n => (n : Int))

/-- The id actually tested by `hasValidPow`: the event's own `id` when
present and truthy (non-empty), otherwise the recomputed hash of the
template (src/pow.ts lines 224-231). -/
def powEffectiveId (hash : EventTemplate → String)
    (evt : EventTemplateWithPow) : String :=
  match evt.idOpt with
  | some i => if i = "" then hash evt.tmpl else i
  | none => hash evt.tmpl

/-- Source `hasValidPow(evt, bits)` (src/pow.ts lines 207-232): true for
`bits ≤ 0`; otherwise looks up the FIRST nonce tag (`Array.prototype.find`),
requires it to have ≥ 3 entries whose third parses to a number ≥ `bits`,
and finally tests the event id (recomputed when absent or empty). -/
def hasValidPow (hash : EventTemplate → String) (evt : EventTemplateWithPow)
    (bits : Int) : Bool :=
  if bits ≤ 0 then true
  else
    match evt.tmpl.tags.find? isNonceTag with
    | none => false
    | some nonceTag =>
      if nonceTag.length < 3 then false
      else
        match nonceTag.get? 2 with
        | none => false
        | some declared =>
          match parseIntJS10 declared with
          | none => false
          | some declaredBits =>
            if declaredBits < bits then false
            else validatePowDifficulty (powEffectiveId hash evt) bits

/-- Modelled from the spec's words (§4.2 Verification, claim C7):
`has_valid_pow(event, B)` is true iff `B ≤ 0`, or THERE EXISTS some nonce
tag whose declared bits parse to ≥ `B` and the event's id (recomputed if
missing) has ≥ `B` leading zero bits.  Kept separate from `hasValidPow`
(translated from the source) to compare the two. -/
def specHasValidPow (hash : EventTemplate → String) (evt : EventTemplateWithPow)
    (bits : Int) : Bool :=
  bits ≤ 0 ||
    (evt.tmpl.tags.any (fun tag =>
      isNonceTag tag &&
        (match parseIntJS10 (tag.getD 2 "") with
         | none => false
         | some d => bits ≤ d) &&
        validatePowDifficulty (powEffectiveId hash evt) bits))

/-! ## Replay tracker (src/messageTracker.ts)

The `MessageTracker` fields (lines 21-43): `lastProcessed`, the
`recentEvents` JS `Set` (modelled as its insertion-ordered list of distinct
ids), `persistenceEnabled` and the tracking config values used by the
operations.  Persistence I/O results are passed in as explicit outcome
flags; `saveTimestamp` / `saveSnapshot` (src/utils.ts lines 188-242) catch
internally and return a success boolean, and `saveTimestampAsync` /
`saveSnapshotAsync` (src/messageTracker.ts lines 208-226) additionally
catch, so no write outcome ever escapes `markProcessed`. -/

structure TrackerState where
  lastProcessed : Int
  recentEvents : List String
  persistenceEnabled : Bool
  trackLimit : Nat
  oldestMqSeconds : Int
deriving DecidableEq, Repr

/-- Insertion into the JS `Set` `recentEvents`: a new id is appended, an
id already present leaves the set (and its insertion order) unchanged. -/
def setAdd (l : List String) (id : String) : List String :=
  if l.contains id then l else l ++ [id]

/-- Source `hasProcessed(eventId, timestamp)` (src/messageTracker.ts lines
125-137): true iff the timestamp is strictly below the watermark or the id
is in `recentEvents`. -/
def hasProcessed (st : TrackerState) (eventId : String) (timestamp : Int) :
    Bool :=
  if timestamp < st.lastProcessed then true
  else if st.recentEvents.contains eventId then true
  else false

/-- Source `getSubscriptionSince()` (src/messageTracker.ts lines 113-115). -/
def getSubscriptionSince (st : TrackerState) : Int :=
  st.lastProcessed

/-- Source `markProcessed(eventId, timestamp)` (src/messageTracker.ts lines
146-171): raise the watermark when the event is newer (persisting the
timestamp, whose write outcome `tsWriteOk` is swallowed); add the id to
`recentEvents`; when the size exceeds `trackLimit`, keep the LAST
`trackLimit` insertions (`Array.from(set).slice(-limit)`) and persist the
snapshot (outcome `snapWriteOk`, also swallowed).  Neither write outcome
changes the tracker state. -/
def markProcessed (st : TrackerState) (eventId : String) (timestamp : Int)
    (tsWriteOk snapWriteOk : Bool) : TrackerState :=
  let st1 :=
    if st.lastProcessed < timestamp then { st with lastProcessed := timestamp }
    else st
  let grown := setAdd st1.recentEvents eventId
  if st1.trackLimit < grown.length then
    { st1 with recentEvents := grown.drop (grown.length - st1.trackLimit) }
  else
    { st1 with recentEvents := grown }

/-- Source `clear()` (src/messageTracker.ts lines 198-202): empty the recent set
and reset the watermark to `now - oldestMqSeconds`. -/
def trackerClear (st : TrackerState) (now : Int) : TrackerState :=
  { st with recentEvents := [],
            lastProcessed := now - st.oldestMqSeconds }

/-- The tracker operations available after initialization, with all
I/O outcomes explicit. -/
inductive TrackerOp where
  | mark (eventId : String) (timestamp : Int) (tsWriteOk snapWriteOk : Bool)
  | clear (now : Int)
deriving DecidableEq, Repr

def applyTrackerOp (st : TrackerState) : TrackerOp → TrackerState
  | .mark id ts w1 w2 => markProcessed st id ts w1 w2
  | .clear now => trackerClear st now

def applyTrackerOps (st : TrackerState) (ops : List TrackerOp) : TrackerState :=
  ops.foldl applyTrackerOp st

/-! ## Relay pool (src/relayPool.ts) -/

/-- Per-relay connection state (src/types.ts `RelayConnection.state`). -/
inductive ConnState where
  | connecting
  | connected
  | disconnected
  | error
deriving DecidableEq, Repr

/-- The slice of a `RelayConnection` that `publish` inspects: the state and
whether a socket object is attached (`connection.ws` non-null). -/
structure RelayConn where
  state : ConnState
  wsPresent : Bool
deriving DecidableEq, Repr

/-- The pool's `connections` map, URL → connection. -/
structure PoolState where
  connections : List (String × RelayConn)
deriving DecidableEq, Repr

def lookupConn (pool : PoolState) (url : String) : Option RelayConn :=
  (pool.connections.find? (fun c => c.1 = url)).map (·.2)

/-- Whether a URL's connection is currently in the `connected` state. -/
def isConnected (pool : PoolState) (url : String) : Bool :=
  match lookupConn pool url with
  | some c => c.state = .connected
  | none => false

/-- Source `Promise.race` over a list of attempts, each modelled by its settle
time and whether it fulfilled (`true`) or rejected (`false`): the attempt
with the smallest settle time wins, earlier list position breaking ties;
`none` for the empty list (a race that never settles). -/
def raceFirst : List (Nat × Bool) → Option (Nat × Bool)
  | [] => none
  | o :: rest =>
    match raceFirst rest with
    | none => some o
    | some b => if o.1 ≤ b.1 then some o else some b

/-- Source `RelayPool.connect()` (src/relayPool.ts lines 233-244): start a
connection attempt per configured relay and `Promise.race` them; the
settled result of the race is returned (wrapping a rejection in the
"Failed to connect to any relay" error), `none` when the race never
settles.  `outcomes` lists each relay's attempt as (settle time, success). -/
def poolConnect (outcomes : List (Nat × Bool)) : Option (Except String Unit) :=
  (raceFirst outcomes).map (fun o =>
    if o.2 then .ok () else .error "Failed to connect to any relay")

/-- One URL's entry of `RelayPool.publish` (src/relayPool.ts lines
395-441): a URL whose connection is missing, not `connected`, or without a
socket is recorded `false`; a failing `ws.send` (outcome `sendOk url`) is
caught and recorded `false`; otherwise the promise for the first `OK`
frame with this event's id is awaited — `okFrames url` lists the (eventId,
accepted) OK frames arriving at that URL within the 5 s window, and no
matching frame means the timeout rejects, caught as `false`. -/
def publishEntry (pool : PoolState) (okFrames : String → List (String × Bool))
    (sendOk : String → Bool) (eventId : String) (url : String) : Bool :=
  match lookupConn pool url with
  | none => false
  | some conn =>
    if conn.state ≠ .connected ∨ ¬ conn.wsPresent then false
    else if ¬ sendOk url then false
    else
      match (okFrames url).find? (fun f => f.1 = eventId) with
      | none => false
      | some f => f.2

/-- Source `RelayPool.publish(event, targetRelays?)` (src/relayPool.ts lines
395-441): the target list defaults to every pool URL; the returned
`Map<string, boolean>` holds one entry per distinct target URL. -/
def poolPublish (pool : PoolState) (okFrames : String → List (String × Bool))
    (sendOk : String → Bool) (eventId : String)
    (targetRelays : Option (List String)) : List (String × Bool) :=
  let relays := targetRelays.getD (pool.connections.map (·.1))
  relays.dedup.map (fun url => (url, publishEntry pool okFrames sendOk eventId url))

/-- The publish-result check of `send` (src/send.ts lines 174-195):
resolve with the event id iff at least one relay accepted, else throw
listing every relay whose entry is `false`. -/
def sendPublishCheck (results : List (String × Bool)) (eventId : String) :
    Except (List String) String :=
  if results.any (·.2) then .ok eventId
  else .error ((results.filter (fun r => ¬ r.2)).map (·.1))

/-! ## Receive pipeline (src/receive.ts) -/

/-- Hex-character test implementing the class `[a-fA-F0-9]`. -/
def isHexChar (c : Char) : Bool :=
  ('0' ≤ c ∧ c ≤ '9') ∨ ('a' ≤ c ∧ c ≤ 'f') ∨ ('A' ≤ c ∧ c ≤ 'F')

/-- Source `isValidHex(str, expectedLength?)` (src/utils.ts lines 72-76): when an
expected length is given and truthy (non-zero) the length must match, and
the string must match `^[a-fA-F0-9]+$` (hence be non-empty). -/
def isValidHex (str : String) (expectedLength : Option Nat) : Bool :=
  if expectedLength.any (fun n => n ≠ 0 ∧ str.length ≠ n) then false
  else ¬ str.isEmpty ∧ str.data.all isHexChar

/-- Source `isValidPubkey(pubkey)` (src/utils.ts lines 81-83). -/
def isValidPubkey (pubkey : String) : Bool :=
  isValidHex pubkey (some 64)

/-- The privkey-override regex `^[a-fA-F0-9]{64}$` of src/receive.ts
line 234. -/
def isHex64 (s : String) : Bool :=
  s.length = 64 ∧ s.data.all isHexChar

/-- The `NostrMQConfig` slice that `receive`/`processEvent` consume. -/
structure ConfigM where
  privkey : String
  pubkey : String
  relays : List String
deriving DecidableEq, Repr

/-- A canonical Nostr event as delivered by the pool. -/
structure NEvent where
  id : String
  pubkey : String
  created_at : Int
  kind : Int
  tags : List (List String)
  content : String
  sig : String
deriving DecidableEq, Repr

/-- The decrypted-and-JSON-parsed cleartext as `processEvent` inspects it:
the `target` / `response` fields (absent field = `none`) and whether a
`payload` field is present (`payload === undefined` is rejected). -/
structure EnvelopeVal where
  target : Option String
  response : Option String
  hasPayload : Bool
deriving DecidableEq, Repr

/-- The delivered message handed to `onMessage`. -/
structure MessageData where
  sender : String
  rawEvent : NEvent
deriving DecidableEq, Repr

/-- Source `processEvent(event, config)` (src/receive.ts lines 333-421),
parameterized by the external NIP-04 decryption
(`decryptFn privkey senderPubkey content`, `none` = throw) and the JSON
parse/shape of the cleartext (`parseFn`, `none` = parse failure or
non-object result).  Checks, in source order: the kind is 30072; some `p`
tag names our pubkey; decryption succeeds; the parse succeeds; `target`
and `response` are truthy and `payload` present; `target` equals our
pubkey; both pubkeys are valid hex.  Any failure drops the event
(`none`). -/
def processEvent (decryptFn : String → String → String → Option String)
    (parseFn : String → Option EnvelopeVal) (config : ConfigM)
    (event : NEvent) : Option MessageData :=
  if event.kind ≠ 30072 then none
  else
    let pTags := event.tags.filter (fun tag => tag.head? = some "p")
    let targetsUs := pTags.any (fun tag => tag.get? 1 = some config.pubkey)
    if ¬ targetsUs then none
    else
      match decryptFn config.privkey event.pubkey event.content with
      | none => none
      | some decryptedContent =>
        match parseFn decryptedContent with
        | none => none
        | some env =>
          match env.target, env.response with
          | some t, some r =>
            if t = "" ∨ r = "" ∨ ¬ env.hasPayload then none
            else if t ≠ config.pubkey then none
            else if ¬ (isValidPubkey t ∧ isValidPubkey r) then none
            else some ⟨event.pubkey, event⟩
          | _, _ => none

/-- One `(url, subId, event)` delivery from the pool's `event` fan-out. -/
structure Delivery where
  url : String
  subId : String
  event : NEvent
deriving DecidableEq, Repr

/-- The per-event handler registered by `receive` (src/receive.ts lines
259-294) applied along a stream of deliveries: deliveries for another
subscription id are ignored, each remaining event goes through
`processEvent`, and every event that survives is handed to `onMessage`.
The result is the sequence of events reaching `onMessage`, in order.
No replay tracker is consulted anywhere on this path. -/
def onMessageCalls (decryptFn : String → String → String → Option String)
    (parseFn : String → Option EnvelopeVal) (config : ConfigM)
    (subscriptionId : String) (deliveries : List Delivery) : List NEvent :=
  deliveries.filterMap (fun d =>
    if d.subId = subscriptionId then
      (processEvent decryptFn parseFn config d.event).map (fun _ => d.event)
    else none)

/-- The subscription filter as delivered to the relays. -/
structure SubFilter where
  kinds : List Int
  ptags : List String
  since : Option Int
deriving DecidableEq, Repr

/-- What `receive` has fixed by the time it subscribes. -/
structure ReceiveSetup where
  config : ConfigM
  relays : List String
  filter : SubFilter
deriving DecidableEq, Repr

/-- The caller-supplied options of `receive` that its setup path reads. -/
structure ReceiveOptsM where
  onMessagePresent : Bool
  relays : Option (List String)
  privkey : Option String
deriving DecidableEq, Repr

/-- The synchronous setup path of `receive(opts)` (src/receive.ts lines
227-328), parameterized by the external `getPublicKey` derivation.  In
source order: a truthy (non-empty) `opts.privkey` must match
`^[a-fA-F0-9]{64}$` or the call throws — before the relay pool, the
subscription id or the handle exist — and on success overrides
`config.privkey` and recomputes `config.pubkey`; a falsy override is
ignored; `opts.relays` overrides the relay list; a missing `onMessage`
throws; the subscription filter is `{ kinds: [30072], "#p":
[config.pubkey] }` with NO `since` field, built from the (possibly
overridden) config that `processEvent` also receives. -/
def receiveSetup (getPub : String → String) (config : ConfigM)
    (opts : ReceiveOptsM) : Except String ReceiveSetup :=
  let overridden : Except String ConfigM :=
    match opts.privkey with
    | some p =>
      if p ≠ "" then
        if ¬ isHex64 p then .error "privkey must be a 64-character hex string"
        else .ok { config with privkey := p, pubkey := getPub p }
      else .ok config
    | none => .ok config
  match overridden with
  | .error e => .error e
  | .ok cfg =>
    let relays := opts.relays.getD cfg.relays
    if ¬ opts.onMessagePresent then .error "onMessage callback is required"
    else
      .ok { config := cfg
            relays := relays
            filter := { kinds := [30072], ptags := [cfg.pubkey], since := none } }

/-! ## Helper lemmas -/

/-- Every tracker operation leaves `persistenceEnabled` unchanged. -/
theorem applyTrackerOp_persistence (st : TrackerState) (op : TrackerOp) :
    (applyTrackerOp st op).persistenceEnabled = st.persistenceEnabled := by
  cases op with
  | mark id ts w1 w2 =>
    simp only [applyTrackerOp, markProcessed]
    split <;> split <;> rfl
  | clear now => rfl

/-- Invariance: `persistenceEnabled` is invariant under any sequence of tracker
operations. -/
theorem applyTrackerOps_persistence (ops : List TrackerOp) :
    ∀ st : TrackerState,
      (applyTrackerOps st ops).persistenceEnabled = st.persistenceEnabled := by
  induction ops with
  | nil => intro st; rfl
  | cons op rest ih =>
    intro st
    simpa only [applyTrackerOps, List.foldl_cons,
      applyTrackerOp_persistence] using
      (applyTrackerOp_persistence st op ▸ ih (applyTrackerOp st op))

/-! ## Claim theorems -/

/-- C2: the claim states that for an id absent from `recent_events`,
`has_processed(id, last_processed)` is true (boundary counted as already
processed) and `has_processed(id, last_processed + 1)` is false.  The
source's `hasProcessed` uses the strict comparison
`timestamp < this.lastProcessed`, so an unseen event at exactly the
watermark evaluates to FALSE, contradicting the claim (and the repo's own
test `should handle edge case timestamps correctly`, which asserts `true`
at the boundary); at watermark + 1 it is false as claimed.  Evaluation at
the failing input: watermark 1000, unseen id, timestamps 1000 and 1001. -/
theorem hasProcessed_boundary_eval :
    hasProcessed ⟨1000, [], true, 100, 3600⟩ "boundary_event" 1000 = false ∧
    hasProcessed ⟨1000, [], true, 100, 3600⟩ "boundary_event" 1001 = false := by
  decide

/-- C5: the claim states `connect()` fails only if every relay fails and
that one relay failing while others are still connecting does not fail the
call.  The source awaits `Promise.race` over the per-relay attempts, which
settles with the FIRST settled attempt — so a single early rejection
rejects `connect()` even though another relay succeeds later.  Evaluation:
relay 1 rejects at time 1, relay 2 fulfills at time 2; the pool's connect
rejects although not every relay failed. -/
theorem poolConnect_first_failure_eval :
    poolConnect [(1, false), (2, true)]
      = some (.error "Failed to connect to any relay") ∧
    [(1, false), (2, true)].any (fun o => o.2) = true := by
  constructor
  · rfl
  · decide

/-- C8 counterexample: the claim states that after a `mark_processed` whose
persistence write fails, `persistence_enabled` is false for the remainder
of the tracker's lifetime.  In the source, `saveTimestampAsync` /
`saveSnapshotAsync` only log write failures; `persistenceEnabled` is never
touched outside `initialize`.  Concretely: a tracker with persistence
enabled marks an event whose timestamp persistence fails
(`tsWriteOk = false`), and `persistenceEnabled` is still `true`. -/
theorem markProcessed_write_failure_cex :
    (markProcessed ⟨100, [], true, 10, 3600⟩ "e1" 200 false
      false).persistenceEnabled = true := by
  decide

/-- C8 (amended): a persistence-write failure inside `mark_processed` is
swallowed (the call always completes and returns the updated state — the
write outcomes `w1`, `w2` never escape) and leaves `persistenceEnabled`
exactly as it was; `persistenceEnabled` is flipped to false only during
initialization, and once false no later operation sets it back to true. -/
theorem markProcessed_persistence_spec (st : TrackerState) (id : String)
    (ts : Int) (w1 w2 : Bool) (ops : List TrackerOp) :
    (markProcessed st id ts w1 w2).persistenceEnabled =
      st.persistenceEnabled ∧
    (st.persistenceEnabled = false →
      (applyTrackerOps st ops).persistenceEnabled = false) := by
  refine ⟨?_, ?_⟩
  · simp only [markProcessed]
    split <;> split <;> rfl
  · intro h
    rw [applyTrackerOps_persistence ops st, h]

/-- Witness for C8: a concrete tracker whose persistence is already off
stays off across a failing-write `markProcessed` and a further operation
sequence. -/
theorem markProcessed_persistence_spec_witness :
    (markProcessed ⟨0, [], false, 10, 60⟩ "a" 1 false
      true).persistenceEnabled = false ∧
    (applyTrackerOps ⟨0, [], false, 10, 60⟩
      [TrackerOp.mark "b" 2 false false]).persistenceEnabled = false := by
  have h := markProcessed_persistence_spec ⟨0, [], false, 10, 60⟩ "a" 1
    false true [TrackerOp.mark "b" 2 false false]
  exact ⟨h.1, h.2 rfl⟩

/-- C10 counterexample: the claim states that ANY privkey override that is
not a 64-character hex string makes `receive` throw before creating the
relay pool.  The source guards the validation with the truthiness test
`if (opts.privkey)`, so the empty-string override — not a 64-character hex
string — is silently ignored and setup succeeds with the environment
config. -/
theorem receiveSetup_empty_privkey_cex :
    receiveSetup (fun _ => "derived") ⟨"sk", "pk", ["wss://r"]⟩
        ⟨true, none, some ""⟩
      = .ok ⟨⟨"sk", "pk", ["wss://r"]⟩, ["wss://r"],
             ⟨[30072], ["pk"], none⟩⟩ := rfl

/-- C10 (amended): a NON-EMPTY privkey override that does not match
`^[a-fA-F0-9]{64}$` makes `receive` throw synchronously — the error is
produced before the relay pool, subscription or handle are built, which
the embedding reflects by `receiveSetup` returning `.error` and no
`ReceiveSetup` value; a valid 64-hex override is installed and the
recomputed pubkey `getPub p` is what both the subscription filter and the
config handed to `processEvent` carry; an empty-string override behaves
exactly like no override. -/
theorem receiveSetup_privkey_override_spec (getPub : String → String)
    (cfg : ConfigM) (om : Bool) (relaysOpt : Option (List String))
    (p : String) :
    (p ≠ "" → isHex64 p = false →
      receiveSetup getPub cfg ⟨om, relaysOpt, some p⟩
        = .error "privkey must be a 64-character hex string") ∧
    (isHex64 p = true →
      receiveSetup getPub cfg ⟨true, relaysOpt, some p⟩
        = .ok ⟨{ cfg with privkey := p, pubkey := getPub p },
               relaysOpt.getD cfg.relays,
               ⟨[30072], [getPub p], none⟩⟩) ∧
    (receiveSetup getPub cfg ⟨om, relaysOpt, some ""⟩
      = receiveSetup getPub cfg ⟨om, relaysOpt, none⟩) := by
  refine ⟨?_, ?_, ?_⟩
  · intro hne hbad
    simp [receiveSetup, hne, hbad]
  · intro hgood
    have hne : p ≠ "" := by
      intro h
      rw [h] at hgood
      simp [isHex64] at hgood
    simp [receiveSetup, hne, hgood]
  · rfl

/-- Witness for C10: the override `"z"` (non-empty, not 64-hex) really is
rejected with the source's error message. -/
theorem receiveSetup_privkey_override_spec_witness :
    receiveSetup (fun _ => "derived") ⟨"sk", "pk", ["wss://r"]⟩
        ⟨true, none, some "z"⟩
      = .error "privkey must be a 64-character hex string" :=
  (receiveSetup_privkey_override_spec (fun _ => "derived")
      ⟨"sk", "pk", ["wss://r"]⟩ true none "z").1 (by decide) (by decide)

/-- The trimming `if` of `markProcessed` written as an unconditional
suffix-keeping `drop` (no-op when the bound is not exceeded). -/
theorem trim_eq_drop (L : List String) (lim : Nat) :
    (if lim < L.length then L.drop (L.length - lim) else L)
      = L.drop (L.length - lim) := by
  split
  · rfl
  · have h : L.length - lim = 0 := by omega
    rw [h, List.drop_zero]

/-- After `markProcessed`, `recentEvents` is the suffix of the grown
insertion-ordered set that keeps the last `trackLimit` entries. -/
theorem markProcessed_recentEvents (st : TrackerState) (id : String)
    (ts : Int) (w1 w2 : Bool) :
    (markProcessed st id ts w1 w2).recentEvents =
      (setAdd st.recentEvents id).drop
        ((setAdd st.recentEvents id).length - st.trackLimit) := by
  rcases lt_or_le st.lastProcessed ts with h | h
  · simp only [markProcessed, if_pos h]
    split
    · rfl
    · rename_i hc
      have h0 : (setAdd st.recentEvents id).length - st.trackLimit = 0 := by
        omega
      simp [h0]
  · simp only [markProcessed, if_neg (not_lt.mpr h)]
    split
    · rfl
    · rename_i hc
      have h0 : (setAdd st.recentEvents id).length - st.trackLimit = 0 := by
        omega
      simp [h0]

/-- C9: after every `mark_processed(id, ts)` on a state satisfying the
tracker's invariants (`recentEvents` distinct and within `trackLimit`,
limit ≥ 1), the retained set is exactly the suffix of the
insertion-ordered set grown by `id` that keeps the last `trackLimit`
entries — i.e. any eviction removes precisely the oldest insertions — its
size is at most `trackLimit`, it still contains the id just marked, and it
remains duplicate-free in insertion order. -/
theorem markProcessed_eviction (st : TrackerState) (id : String) (ts : Int)
    (w1 w2 : Bool) (hb : st.recentEvents.length ≤ st.trackLimit)
    (hlim : 1 ≤ st.trackLimit) (hnd : st.recentEvents.Nodup) :
    (markProcessed st id ts w1 w2).recentEvents
        = (setAdd st.recentEvents id).drop
            ((setAdd st.recentEvents id).length - st.trackLimit) ∧
    (markProcessed st id ts w1 w2).recentEvents.length ≤ st.trackLimit ∧
    id ∈ (markProcessed st id ts w1 w2).recentEvents ∧
    (markProcessed st id ts w1 w2).recentEvents.Nodup := by
  have hre := markProcessed_recentEvents st id ts w1 w2
  refine ⟨hre, ?_, ?_, ?_⟩
  · rw [hre, List.length_drop]
    omega
  · rw [hre]
    by_cases hmem : id ∈ st.recentEvents
    · have hLl : setAdd st.recentEvents id = st.recentEvents := by
        simp [setAdd, hmem]
      rw [hLl]
      have h0 : st.recentEvents.length - st.trackLimit = 0 := by omega
      rw [h0, List.drop_zero]
      exact hmem
    · have hLl : setAdd st.recentEvents id = st.recentEvents ++ [id] := by
        simp [setAdd, hmem]
      rw [hLl]
      have hk : (st.recentEvents ++ [id]).length - st.trackLimit
          ≤ st.recentEvents.length := by
        simp only [List.length_append, List.length_singleton]
        omega
      rw [List.drop_append_of_le_length hk]
      exact List.mem_append_right _ (List.mem_singleton.mpr rfl)
  · rw [hre]
    have hndL : (setAdd st.recentEvents id).Nodup := by
      by_cases hmem : id ∈ st.recentEvents
      · simpa [setAdd, hmem] using hnd
      · have h1 : setAdd st.recentEvents id = st.recentEvents ++ [id] := by
          simp [setAdd, hmem]
        rw [h1]
        simp_all [List.nodup_append]
    exact hndL.sublist (List.drop_sublist _ _)

/-- Witness for C9: a tracker holding `["x"]` with limit 1 marks `"y"`:
`"x"` (the oldest insertion) is evicted and exactly `["y"]` is retained. -/
theorem markProcessed_eviction_witness :
    (markProcessed ⟨0, ["x"], true, 1, 60⟩ "y" 5 true true).recentEvents
        = (setAdd ["x"] "y").drop ((setAdd ["x"] "y").length - 1) ∧
    (markProcessed ⟨0, ["x"], true, 1, 60⟩ "y" 5 true
      true).recentEvents.length ≤ 1 ∧
    "y" ∈ (markProcessed ⟨0, ["x"], true, 1, 60⟩ "y" 5 true
      true).recentEvents ∧
    (markProcessed ⟨0, ["x"], true, 1, 60⟩ "y" 5 true
      true).recentEvents.Nodup :=
  markProcessed_eviction ⟨0, ["x"], true, 1, 60⟩ "y" 5 true true
    (by decide) (by decide) (by decide)

/-- Any result the mining loop returns is the input template with one
nonce tag appended, carries the hash of that template as its id, and
passes the difficulty test. -/
theorem mineLoop_sound (hash : EventTemplate → String) (evt : EventTemplate)
    (bits : Int) (stride : Nat) :
    ∀ (fuel nonce iters : Nat) (r : PowResult),
      mineLoop hash evt bits stride fuel nonce iters = some r →
      ∃ n : Nat,
        r.event.tmpl = withNonce evt n bits ∧
        r.event.idOpt = some (hash (withNonce evt n bits)) ∧
        validatePowDifficulty (hash (withNonce evt n bits)) bits = true := by
  intro fuel
  induction fuel with
  | zero => intro nonce iters r h; exact absurd h (by simp [mineLoop])
  | succ f ih =>
    intro nonce iters r h
    rw [mineLoop] at h
    by_cases hv : validatePowDifficulty (hash (withNonce evt nonce bits)) bits
    · refine ⟨nonce, ?_, ?_, hv⟩ <;>
        · simp only [hv, if_true] at h
          cases h
          rfl
    · simp only [hv, if_false, Bool.false_eq_true] at h
      exact ih (nonce + stride) (iters + 1) r h

/-- C4 counterexample: the claim states that for every template `t` the
mined result's tags contain EXACTLY ONE nonce tag.  The mining loop
appends `["nonce", nonce, bits]` after the existing tags without removing
a pre-existing nonce tag, so a template that already carries one comes
back with two.  Evaluation with the constant hash `"0"` (4 leading zero
bits) at target 1 bit, 1 thread: the template with tags
`[["nonce","7","4"]]` mines at nonce 0 to a result carrying two nonce
tags. -/
theorem mineEventPow_duplicate_nonce_cex :
    mineEventPow (fun _ => "0") ⟨"p", 0, 30072, [["nonce", "7", "4"]], "c"⟩
        1 1 0 1
      = .ok (some ⟨⟨"p", 0, 30072,
          [["nonce", "7", "4"], ["nonce", "0", "1"]], "c"⟩, some "0"⟩) ∧
    (([["nonce", "7", "4"], ["nonce", "0", "1"]] :
        List (List String)).filter isNonceTag).length ≠ 1 := by
  constructor
  · rfl
  · decide

/-- C4 (amended): whenever `mineEventPow(t, B, W)` returns a template for
`B ≥ 0` and `W ≥ 1` (any race winner, any fuel), then: for `B = 0` it is
`t` itself, unchanged, with no nonce tag added and no id; for `B > 0` it
is `t` with ONE ADDITIONAL nonce tag appended at the end of `t`'s existing
tags (pre-existing nonce tags are not removed, so "exactly one nonce tag"
holds only when `t` had none), its declared-bits field is `B`, the
computed event id is attached, and the hash of the returned template has
at least `B` leading zero bits. -/
theorem mineEventPow_spec (hash : EventTemplate → String)
    (evt : EventTemplate) (bits threads : Int) (winner fuel : Nat)
    (t' : EventTemplateWithPow)
    (h : mineEventPow hash evt bits threads winner fuel = .ok (some t')) :
    (bits = 0 → t' = ⟨evt, none⟩) ∧
    (0 < bits → ∃ n : Nat,
      t'.tmpl = { evt with
        tags := evt.tags ++ [["nonce", toString n, toString bits]] } ∧
      t'.idOpt = some (hash t'.tmpl) ∧
      bits ≤ (countLeadingZeroBits (hash t'.tmpl) : Int)) := by
  rw [mineEventPow] at h
  by_cases h0 : bits < 0
  · rw [if_pos h0] at h
    exact absurd h (by simp)
  · by_cases hz : bits = 0
    · rw [if_neg h0, if_pos hz] at h
      cases Except.ok.inj h
      exact ⟨fun _ => (Option.some.inj (Except.ok.inj h)).symm,
        fun hpos => absurd hz (by omega)⟩
    · refine ⟨fun he => absurd he hz, fun hpos => ?_⟩
      by_cases ht1 : threads < 1
      · rw [if_neg h0, if_neg hz, if_pos ht1] at h
        exact absurd h (by simp)
      · by_cases hte : threads = 1
        · rw [if_neg h0, if_neg hz, if_neg ht1, if_pos hte] at h
          obtain ⟨r, hr, hre⟩ := Option.map_eq_some'.mp (Except.ok.inj h)
          obtain ⟨n, hn1, hn2, hn3⟩ :=
            mineLoop_sound hash evt bits 1 fuel 0 0 r hr
          refine ⟨n, ?_, ?_, ?_⟩
          · rw [← hre, hn1]; rfl
          · rw [← hre, hn2, hn1]
          · rw [← hre, hn1]
            unfold validatePowDifficulty at hn3
            rw [if_neg (by omega)] at hn3
            exact of_decide_eq_true hn3
        · rw [if_neg h0, if_neg hz, if_neg ht1, if_neg hte] at h
          obtain ⟨r, hr, hre⟩ := Option.map_eq_some'.mp (Except.ok.inj h)
          obtain ⟨n, hn1, hn2, hn3⟩ := mineLoop_sound hash evt bits
            threads.toNat fuel (winner % threads.toNat) 0 r hr
          refine ⟨n, ?_, ?_, ?_⟩
          · rw [← hre, hn1]; rfl
          · rw [← hre, hn2, hn1]
          · rw [← hre, hn1]
            unfold validatePowDifficulty at hn3
            rw [if_neg (by omega)] at hn3
            exact of_decide_eq_true hn3

/-- Witness for C4 (amended): mining a nonce-free template at 1 bit with
the constant hash `"0"` yields exactly the appended nonce tag, the
attached id, and 4 ≥ 1 leading zero bits. -/
theorem mineEventPow_spec_witness :
    ((1 : Int) = 0 →
      (⟨⟨"p", 0, 30072, [["nonce", "0", "1"]], "c"⟩, some "0"⟩ :
        EventTemplateWithPow) = ⟨⟨"p", 0, 30072, [], "c"⟩, none⟩) ∧
    (0 < (1 : Int) → ∃ n : Nat,
      (⟨⟨"p", 0, 30072, [["nonce", "0", "1"]], "c"⟩, some "0"⟩ :
          EventTemplateWithPow).tmpl
        = { (⟨"p", 0, 30072, [], "c"⟩ : EventTemplate) with
            tags := ([] : List (List String)) ++
              [["nonce", toString n, toString (1 : Int)]] } ∧
      (⟨⟨"p", 0, 30072, [["nonce", "0", "1"]], "c"⟩, some "0"⟩ :
          EventTemplateWithPow).idOpt
        = some ((fun _ => "0")
            (⟨⟨"p", 0, 30072, [["nonce", "0", "1"]], "c"⟩, some "0"⟩ :
              EventTemplateWithPow).tmpl) ∧
      (1 : Int) ≤ (countLeadingZeroBits ((fun _ => "0")
        (⟨⟨"p", 0, 30072, [["nonce", "0", "1"]], "c"⟩, some "0"⟩ :
          EventTemplateWithPow).tmpl) : Int)) :=
  mineEventPow_spec (fun _ => "0") ⟨"p", 0, 30072, [], "c"⟩ 1 1 0 1
    ⟨⟨"p", 0, 30072, [["nonce", "0", "1"]], "c"⟩, some "0"⟩ rfl

/-- C7 counterexample: the claim quantifies over SOME nonce tag ("there
exists some nonce tag … ≥ B"), but the source inspects only the FIRST
nonce tag (`Array.prototype.find`).  An event whose first nonce tag
declares 1 bit and whose second declares 8, with id `"00"` (8 leading zero
bits), is rejected by `hasValidPow(·, 8)` although the spec predicate
(`specHasValidPow`, modelled from the claim's words) accepts it. -/
theorem hasValidPow_first_tag_cex :
    hasValidPow (fun _ => "x")
        ⟨⟨"p", 0, 30072, [["nonce", "1", "1"], ["nonce", "2", "8"]], "c"⟩,
          some "00"⟩ 8 = false ∧
    specHasValidPow (fun _ => "x")
        ⟨⟨"p", 0, 30072, [["nonce", "1", "1"], ["nonce", "2", "8"]], "c"⟩,
          some "00"⟩ 8 = true := by
  constructor
  · rfl
  · rfl

/-- C7 (amended): `has_valid_pow(event, B)` returns true iff `B ≤ 0`, or
the FIRST nonce tag of the event's tags has at least 3 entries, its third
entry parses (JS `parseInt(·, 10)`) to a number ≥ `B`, and the event's id
— recomputed from the template when the `id` field is absent or empty —
has at least `B` leading zero bits. -/
theorem hasValidPow_iff (hash : EventTemplate → String)
    (evt : EventTemplateWithPow) (bits : Int) :
    hasValidPow hash evt bits = true ↔
      (bits ≤ 0 ∨
        ∃ tag, evt.tmpl.tags.find? isNonceTag = some tag ∧
          3 ≤ tag.length ∧
          ∃ d, (tag.get? 2).bind parseIntJS10 = some d ∧ bits ≤ d ∧
            bits ≤ (countLeadingZeroBits (powEffectiveId hash evt) : Int)) := by
  rw [hasValidPow]
  by_cases hb : bits ≤ 0
  · simp [hb]
  · rw [if_neg hb]
    cases hfind : evt.tmpl.tags.find? isNonceTag with
    | none => simp [hb]
    | some tag =>
      dsimp only
      by_cases hlen : tag.length < 3
      · rw [if_pos hlen]
        constructor
        · intro h; exact absurd h (by simp)
        · rintro (h | ⟨t, ht, hl, _⟩)
          · exact absurd h hb
          · cases Option.some.inj ht
            omega
      · rw [if_neg hlen]
        cases hget : tag.get? 2 with
        | none =>
          exfalso
          rw [List.get?_eq_none] at hget
          omega
        | some declared =>
          dsimp only
          cases hparse : parseIntJS10 declared with
          | none =>
            dsimp only
            constructor
            · intro h; exact absurd h (by simp)
            · rintro (h | ⟨t, ht, hl, d, hd, _⟩)
              · exact absurd h hb
              · cases Option.some.inj ht
                rw [hget] at hd
                simp only [Option.some_bind] at hd
                rw [hparse] at hd
                exact absurd hd (by simp)
          | some declaredBits =>
            dsimp only
            by_cases hlt : declaredBits < bits
            · rw [if_pos hlt]
              constructor
              · intro h; exact absurd h (by simp)
              · rintro (h | ⟨t, ht, hl, d, hd, hbd, _⟩)
                · exact absurd h hb
                · cases Option.some.inj ht
                  rw [hget] at hd
                  simp only [Option.some_bind] at hd
                  rw [hparse] at hd
                  cases Option.some.inj hd
                  omega
            · rw [if_neg hlt]
              rw [validatePowDifficulty, if_neg hb]
              constructor
              · intro h
                refine Or.inr ⟨tag, rfl, by omega, declaredBits, ?_, by omega,
                  of_decide_eq_true h⟩
                rw [hget]
                simp [hparse]
              · rintro (h | ⟨t, ht, hl, d, hd, hbd, hclzb⟩)
                · exact absurd h hb
                · exact decide_eq_true hclzb

/-- Witness for C7 (amended): at `B = 0` the characterization applies and
verification accepts any event. -/
theorem hasValidPow_iff_witness :
    hasValidPow (fun _ => "f") ⟨⟨"p", 0, 30072, [], "c"⟩, none⟩ 0 = true :=
  (hasValidPow_iff (fun _ => "f") ⟨⟨"p", 0, 30072, [], "c"⟩, none⟩ 0).mpr
    (Or.inl (by decide))

/-- A publish entry for a URL that is not currently connected is `false`. -/
theorem publishEntry_not_connected (pool : PoolState)
    (okFrames : String → List (String × Bool)) (sendOk : String → Bool)
    (eventId url : String) (h : isConnected pool url = false) :
    publishEntry pool okFrames sendOk eventId url = false := by
  rw [publishEntry]
  cases hlk : lookupConn pool url with
  | none => rfl
  | some conn =>
    rw [isConnected, hlk] at h
    dsimp only at h ⊢
    have hne : conn.state ≠ ConnState.connected := by simpa using h
    rw [if_pos (Or.inl hne)]

/-- A `true` publish entry certifies a connected URL and an accepted OK
frame carrying this event's id. -/
theorem publishEntry_true_char (pool : PoolState)
    (okFrames : String → List (String × Bool)) (sendOk : String → Bool)
    (eventId url : String)
    (h : publishEntry pool okFrames sendOk eventId url = true) :
    isConnected pool url = true ∧
    ∃ f ∈ okFrames url, f.1 = eventId ∧ f.2 = true := by
  rw [publishEntry] at h
  split at h
  · exact absurd h (by simp)
  · rename_i conn hlk
    split at h
    · exact absurd h (by simp)
    · rename_i hbad
      push_neg at hbad
      split at h
      · exact absurd h (by simp)
      · split at h
        · exact absurd h (by simp)
        · rename_i f hfind
          refine ⟨?_, f, List.mem_of_find?_eq_some hfind,
            by simpa using List.find?_some hfind, h⟩
          rw [isConnected, hlk]
          simp [hbad.1]

/-- C6: for every publish, the returned map has exactly one entry per
distinct target URL (defaulting to every pool URL); a URL whose connection
is not currently `connected` is recorded `false`; an entry is `true` only
if the URL is connected and an `OK` frame with this event's id and
`accepted = true` arrived within the await window; and `send`'s
publish-result check resolves with the event id iff at least one entry is
`true`, otherwise failing with the list of URLs whose entry is `false`. -/
theorem poolPublish_send_spec (pool : PoolState)
    (okFrames : String → List (String × Bool)) (sendOk : String → Bool)
    (eventId : String) (targets : Option (List String)) :
    ((poolPublish pool okFrames sendOk eventId targets).map (fun r => r.1)
        = (targets.getD (pool.connections.map (fun c => c.1))).dedup) ∧
    (∀ url b, (url, b) ∈ poolPublish pool okFrames sendOk eventId targets →
      isConnected pool url = false → b = false) ∧
    (∀ url b, (url, b) ∈ poolPublish pool okFrames sendOk eventId targets →
      b = true →
      isConnected pool url = true ∧
      ∃ f ∈ okFrames url, f.1 = eventId ∧ f.2 = true) ∧
    (sendPublishCheck (poolPublish pool okFrames sendOk eventId targets)
        eventId = .ok eventId ↔
      ∃ r ∈ poolPublish pool okFrames sendOk eventId targets, r.2 = true) ∧
    ((¬ ∃ r ∈ poolPublish pool okFrames sendOk eventId targets, r.2 = true) →
      sendPublishCheck (poolPublish pool okFrames sendOk eventId targets)
          eventId
        = .error (((poolPublish pool okFrames sendOk eventId
            targets).filter (fun r => ¬ r.2)).map (fun r => r.1))) := by
  have hmem : ∀ url b,
      (url, b) ∈ poolPublish pool okFrames sendOk eventId targets →
      b = publishEntry pool okFrames sendOk eventId url := by
    intro url b hin
    rw [poolPublish] at hin
    obtain ⟨u, hu, hub⟩ := List.mem_map.mp hin
    cases hub
    rfl
  refine ⟨?_, ?_, ?_, ?_, ?_⟩
  · rw [poolPublish, List.map_map]
    exact List.map_id _
  · intro url b hin hnc
    rw [hmem url b hin]
    exact publishEntry_not_connected pool okFrames sendOk eventId url hnc
  · intro url b hin htrue
    rw [hmem url b hin] at htrue
    exact publishEntry_true_char pool okFrames sendOk eventId url htrue
  · rw [sendPublishCheck]
    by_cases hany :
        (poolPublish pool okFrames sendOk eventId targets).any
          (fun r => r.2) = true
    · rw [if_pos hany]
      refine iff_of_true rfl ?_
      obtain ⟨r, hr, hrt⟩ := List.any_eq_true.mp hany
      exact ⟨r, hr, hrt⟩
    · rw [if_neg hany]
      refine iff_of_false (by simp) ?_
      rintro ⟨r, hr, hrt⟩
      exact hany (List.any_eq_true.mpr ⟨r, hr, hrt⟩)
  · intro hnone
    rw [sendPublishCheck, if_neg (fun hany => ?_)]
    obtain ⟨r, hr, hrt⟩ := List.any_eq_true.mp hany
    exact hnone ⟨r, hr, hrt⟩

/-- Witness for C6: one connected relay answering `OK(id1, true)` makes
the publish succeed and `send` resolve with the event id. -/
theorem poolPublish_send_spec_witness :
    sendPublishCheck
        (poolPublish ⟨[("wss://a", ⟨ConnState.connected, true⟩)]⟩
          (fun _ => [("id1", true)]) (fun _ => true) "id1" none) "id1"
      = .ok "id1" :=
  (poolPublish_send_spec ⟨[("wss://a", ⟨ConnState.connected, true⟩)]⟩
      (fun _ => [("id1", true)]) (fun _ => true) "id1" none).2.2.2.1.mpr
    (by decide)

/-- C1: the claim states the per-event handler drops any event for which
`tracker.has_processed(e.id, e.created_at)` is true, so no id reaches
`on_message` twice.  The source's `receive`/`processEvent` never construct
or consult a `MessageTracker` (contradicting the repo's own integration
test `should skip duplicate events` and the README's "Automatic Replay
Protection").  Evaluation: a fully valid event with id `"dup"` delivered
twice on the same subscription reaches `on_message` twice. -/
theorem receive_duplicate_delivery_eval :
    (onMessageCalls (fun _ _ c => some c)
        (fun _ => some ⟨some
          "bbbbbbbbbbbbbbbbbbbbbbbbbbbbbbbbbbbbbbbbbbbbbbbbbbbbbbbbbbbbbbbb",
          some
          "bbbbbbbbbbbbbbbbbbbbbbbbbbbbbbbbbbbbbbbbbbbbbbbbbbbbbbbbbbbbbbbb",
          true⟩)
        ⟨"sk",
         "bbbbbbbbbbbbbbbbbbbbbbbbbbbbbbbbbbbbbbbbbbbbbbbbbbbbbbbbbbbbbbbb",
         ["wss://r"]⟩
        "sub1"
        [⟨"wss://r", "sub1",
          ⟨"dup", "sender", 100, 30072,
            [["p",
              "bbbbbbbbbbbbbbbbbbbbbbbbbbbbbbbbbbbbbbbbbbbbbbbbbbbbbbbbbbbbbbbb"]],
            "ct", "sg"⟩⟩,
         ⟨"wss://r", "sub1",
          ⟨"dup", "sender", 100, 30072,
            [["p",
              "bbbbbbbbbbbbbbbbbbbbbbbbbbbbbbbbbbbbbbbbbbbbbbbbbbbbbbbbbbbbbbbb"]],
            "ct", "sg"⟩⟩]).map (fun e => e.id)
      = ["dup", "dup"] := by
  decide

/-- C3: the claim states the subscription filter sent to the relays is
exactly `{ kinds: [30072], "#p": [pubkey], since:
tracker.subscription_since() }`.  The source builds the filter WITHOUT any
`since` field (and never instantiates the tracker whose
`getSubscriptionSince` would supply it), contradicting the repo's own
tests `should add since parameter to subscription filter …` and `should
use MessageTracker timestamp for since parameter`.  Every successful
`receive` setup subscribes with kinds `[30072]`, `"#p"` holding the
effective pubkey, and NO `since`. -/
theorem receiveSetup_filter_no_since (getPub : String → String)
    (cfg : ConfigM) (opts : ReceiveOptsM) (s : ReceiveSetup)
    (h : receiveSetup getPub cfg opts = .ok s) :
    s.filter = ⟨[30072], [s.config.pubkey], none⟩ := by
  rw [receiveSetup] at h
  split at h
  · exact absurd h (by simp)
  · rename_i cfg2 hover
    split at h
    · exact absurd h (by simp)
    · cases Except.ok.inj h
      rfl

/-- Witness for C3: the concrete setup without overrides produces the
since-less filter. -/
theorem receiveSetup_filter_no_since_witness :
    (⟨⟨"sk", "pk", ["wss://r"]⟩, ["wss://r"],
        ⟨[30072], ["pk"], none⟩⟩ : ReceiveSetup).filter
      = ⟨[30072],
         [(⟨⟨"sk", "pk", ["wss://r"]⟩, ["wss://r"],
             ⟨[30072], ["pk"], none⟩⟩ : ReceiveSetup).config.pubkey],
         none⟩ :=
  receiveSetup_filter_no_since (fun _ => "gp") ⟨"sk", "pk", ["wss://r"]⟩
    ⟨true, none, none⟩
    ⟨⟨"sk", "pk", ["wss://r"]⟩, ["wss://r"], ⟨[30072], ["pk"], none⟩⟩ rfl
